import Mathlib

/-!
Verification of the deepfake-detection backend (`backend_api/app/main.py`).

Shallow embedding of the score normalizer `get_fake_probability` and the
`/scan-image/` request handler `scan_image`.  Python floats are modelled by
exact rationals (`ℚ`); the model prediction lists are lists of label/score
pairs; the fallible phase of the handler (image decode, model inference,
Prism forensics) is modelled by an `Except String` value feeding the pure
ensemble/report logic, with the handler's `try/except` boundary modelled by
the `Except.error` arm.
-/

namespace DeepfakeDetection

/-- One entry of a HuggingFace pipeline output: `{'label': ..., 'score': ...}`. -/
structure Prediction where
  label : String
  score : ℚ
  deriving Repr, DecidableEq

/-- The fixed "fake" label set of `get_fake_probability`
(`['fake', 'deepfake', 'artificial', 'label_0', 'ai']`). -/
def isFakeLabel (l : String) : Bool :=
  ["fake", "deepfake", "artificial", "label_0", "ai"].contains l

/-- The fixed "real" label set of `get_fake_probability`
(`['real', 'natural', 'label_1', 'human']`). -/
def isRealLabel (l : String) : Bool :=
  ["real", "natural", "label_1", "human"].contains l

/-- Lowercasing of one character, as Python's `str.lower` acts on the ASCII
range (all label strings compared by `get_fake_probability` are ASCII). -/
def lowerChar (c : Char) : Char :=
  if 'A' ≤ c ∧ c ≤ 'Z' then Char.ofNat (c.toNat + 32) else c

/-- Python string lowercasing (`pred['label'].lower()`), modelled on the
ASCII range character by character. -/
def pyLower (s : String) : String :=
  String.mk (s.data.map lowerChar)

/-- One step of the loop body of `get_fake_probability`: the accumulator is the
pair `(fake_score, real_score)`; a fake-set label overwrites `fake_score`, else
(`elif`) a real-set label overwrites `real_score`, else the pair is unchanged.
The label is lowercased first (`pred['label'].lower()`). -/
def scoreStep (acc : ℚ × ℚ) (p : Prediction) : ℚ × ℚ :=
  let label := pyLower p.label
  if isFakeLabel label then (p.score, acc.2)
  else if isRealLabel label then (acc.1, p.score)
  else acc

/-- The loop of `get_fake_probability`, starting from
`fake_score = 0.0; real_score = 0.0`. -/
def scoresOf (preds : List Prediction) : ℚ × ℚ :=
  preds.foldl scoreStep (0, 0)

/-- The function `get_fake_probability(predictions)` from `main.py`: run the loop, then
resolve — a positive `fake_score` is returned directly, else a positive
`real_score` yields `1 - real_score`, else the fallback `0.5`. -/
def get_fake_probability (preds : List Prediction) : ℚ :=
  let s := scoresOf preds
  if s.1 > 0 then s.1
  else if s.2 > 0 then 1 - s.2
  else 1/2

/-- The score of the last prediction whose lowercased label is in the fake
set, if any (later duplicates shadow earlier ones). -/
def lastFakeScore : List Prediction → Option ℚ
  | [] => none
  | p :: ps =>
    match lastFakeScore ps with
    | some s => some s
    | none => if isFakeLabel (pyLower p.label) then some p.score else none

/-- The score of the last prediction whose lowercased label is in the real
set, if any. -/
def lastRealScore : List Prediction → Option ℚ
  | [] => none
  | p :: ps =>
    match lastRealScore ps with
    | some s => some s
    | none => if isRealLabel (pyLower p.label) then some p.score else none

/-- The ensemble combination of `scan_image` (Phase 3): a high-confidence
override trusts the maximum outright, otherwise the two model scores are
blended with equal weight, scaled to a 0–100 risk. -/
def finalScore (score_swap score_gen : ℚ) : ℚ :=
  if score_swap > 9/10 ∨ score_gen > 9/10 then
    max score_swap score_gen * 100
  else
    ((score_swap * (1/2)) + (score_gen * (1/2))) * 100

/-- Verdict rule: `verdict = "FAKE" if final_score > 50 else "REAL"`. -/
def verdictOf (score_swap score_gen : ℚ) : String :=
  if finalScore score_swap score_gen > 50 then "FAKE" else "REAL"

/-- Display-score logic: start from `final_score` and invert it when the
verdict is REAL. -/
def displayScore (score_swap score_gen : ℚ) : ℚ :=
  let final := finalScore score_swap score_gen
  if verdictOf score_swap score_gen = "REAL" then 100 - final else final

/-- The Vigilante-V2 headline line (the `{score*100:.1f}` float formatting is
abstracted to exact rational rendering). -/
def swapLine (score_swap : ℚ) : String :=
  "• CRITICAL: Vigilante-V2 detected distinct Face Swap artifacts (" ++
    toString (score_swap * 100) ++ "% confidence)."

/-- The Sentinel-X headline line. -/
def genLine (score_gen : ℚ) : String :=
  "• CRITICAL: Sentinel-X detected AI Generative textures (" ++
    toString (score_gen * 100) ++ "% confidence)."

/-- The clean headline line emitted on a REAL verdict. -/
def cleanLine : String :=
  "• CLEAN: AI models found no manipulation traces."

/-- Phase 4, step 1 of `scan_image` ("The Headlines"): under FAKE, each model
whose score exceeds 0.9 appends its own CRITICAL line; under REAL one CLEAN
line is appended. -/
def headlineLines (score_swap score_gen : ℚ) : List String :=
  if verdictOf score_swap score_gen = "FAKE" then
    (if score_swap > 9/10 then [swapLine score_swap] else []) ++
      (if score_gen > 9/10 then [genLine score_gen] else [])
  else
    [cleanLine]

/-- Phase 4, step 2: every Prism forensic log line is appended after the
headlines, each prefixed with a bullet (`f"• {log}"`). -/
def reportLines (score_swap score_gen : ℚ) (prism_logs : List String) : List String :=
  headlineLines score_swap score_gen ++ prism_logs.map (fun log => "• " ++ log)

/-- Lines joined with single newline separators, as Python joins the report lines. -/
def joinLines : List String → String
  | [] => ""
  | [l] => l
  | l :: ls => l ++ "\n" ++ joinLines ls

/-- The `full_analysis` string as assembled by `scan_image`. -/
def fullAnalysis (score_swap score_gen : ℚ) (prism_logs : List String) : String :=
  joinLines (reportLines score_swap score_gen prism_logs)

/-- The JSON body returned by the `/scan-image/` handler.  `confidence_score`
is optional because the error-path dictionary carries no such key. -/
structure ScanResponse where
  verdict : String
  confidence_score : Option String
  analysis : String
  deriving Repr, DecidableEq

/-- Percentage formatting of the display score (the two-decimal float formatting is abstracted
to exact rational rendering; the trailing percent sign is kept). -/
def formatPercent (q : ℚ) : String := toString q ++ "%"

/-- The success-path response of `scan_image`, from the two normalized model
scores and the Prism log lines. -/
def scanCore (score_swap score_gen : ℚ) (prism_logs : List String) : ScanResponse :=
  { verdict := verdictOf score_swap score_gen
    confidence_score := some (formatPercent (displayScore score_swap score_gen))
    analysis := fullAnalysis score_swap score_gen prism_logs }

/-- The `/scan-image/` handler at its `try/except` boundary: the fallible
phase (decode, inference, forensics) either produces the two scores and the
Prism logs, or raises; a raised exception is caught and converted to the
ERROR response `{"verdict": "ERROR", "analysis": str(e)}`, which has no
`confidence_score` key. -/
def scanImage (phases : Except String ((ℚ × ℚ) × List String)) : ScanResponse :=
  match phases with
  | Except.ok ((score_swap, score_gen), prism_logs) =>
      scanCore score_swap score_gen prism_logs
  | Except.error e =>
      { verdict := "ERROR", confidence_score := none, analysis := e }

/-- The pieces `ls` occur, in order and without overlap, as substrings of `s`
(each piece unchanged character for character). -/
def containsInOrder : List Char → List (List Char) → Prop
  | _, [] => True
  | s, l :: ls => ∃ u v, s = u ++ l ++ v ∧ containsInOrder v ls

/-! Helper lemmas about the score-extraction loop. -/

theorem fake_label_not_real (l : String) (h : isFakeLabel l = true) :
    isRealLabel l = false := by
  simp only [isFakeLabel, List.contains_cons, List.contains_nil, Bool.or_eq_true,
    beq_iff_eq, Bool.or_false] at h
  rcases h with h | h | h | h | h <;> subst h <;> rfl

theorem scoreStep_of_fake (acc : ℚ × ℚ) (p : Prediction)
    (h : isFakeLabel (pyLower p.label) = true) :
    scoreStep acc p = (p.score, acc.2) := by
  simp [scoreStep, h]

theorem scoreStep_of_real (acc : ℚ × ℚ) (p : Prediction)
    (hf : isFakeLabel (pyLower p.label) = false)
    (hr : isRealLabel (pyLower p.label) = true) :
    scoreStep acc p = (acc.1, p.score) := by
  simp [scoreStep, hf, hr]

theorem scoreStep_of_other (acc : ℚ × ℚ) (p : Prediction)
    (hf : isFakeLabel (pyLower p.label) = false)
    (hr : isRealLabel (pyLower p.label) = false) :
    scoreStep acc p = acc := by
  simp [scoreStep, hf, hr]

theorem foldl_scoreStep_fst (preds : List Prediction) :
    ∀ a b : ℚ, (preds.foldl scoreStep (a, b)).1 = (lastFakeScore preds).getD a := by
  induction preds with
  | nil => intro a b; rfl
  | cons p ps ih =>
    intro a b
    rw [List.foldl_cons]
    rcases hf : isFakeLabel (pyLower p.label) with _ | _
    · rcases hr : isRealLabel (pyLower p.label) with _ | _
      · rw [scoreStep_of_other _ _ hf hr, ih a b]
        simp only [lastFakeScore, hf]
        cases lastFakeScore ps <;> simp
      · rw [scoreStep_of_real _ _ hf hr, ih a p.score]
        simp only [lastFakeScore, hf]
        cases lastFakeScore ps <;> simp
    · rw [scoreStep_of_fake _ _ hf, ih p.score b]
      simp only [lastFakeScore, hf]
      cases lastFakeScore ps <;> simp

theorem foldl_scoreStep_snd (preds : List Prediction) :
    ∀ a b : ℚ, (preds.foldl scoreStep (a, b)).2 = (lastRealScore preds).getD b := by
  induction preds with
  | nil => intro a b; rfl
  | cons p ps ih =>
    intro a b
    rw [List.foldl_cons]
    rcases hf : isFakeLabel (pyLower p.label) with _ | _
    · rcases hr : isRealLabel (pyLower p.label) with _ | _
      · rw [scoreStep_of_other _ _ hf hr, ih a b]
        simp only [lastRealScore, hr]
        cases lastRealScore ps <;> simp
      · rw [scoreStep_of_real _ _ hf hr, ih a p.score]
        simp only [lastRealScore, hr]
        cases lastRealScore ps <;> simp
    · have hr : isRealLabel (pyLower p.label) = false := fake_label_not_real _ hf
      rw [scoreStep_of_fake _ _ hf, ih p.score b]
      simp only [lastRealScore, hr]
      cases lastRealScore ps <;> simp

theorem scoresOf_fst (preds : List Prediction) :
    (scoresOf preds).1 = (lastFakeScore preds).getD 0 :=
  foldl_scoreStep_fst preds 0 0

theorem scoresOf_snd (preds : List Prediction) :
    (scoresOf preds).2 = (lastRealScore preds).getD 0 :=
  foldl_scoreStep_snd preds 0 0

theorem lastFakeScore_mem (preds : List Prediction) (t : ℚ)
    (h : lastFakeScore preds = some t) :
    ∃ p ∈ preds, isFakeLabel (pyLower p.label) = true ∧ p.score = t := by
  induction preds with
  | nil => exact absurd h (by simp [lastFakeScore])
  | cons p ps ih =>
    rw [lastFakeScore] at h
    rcases hps : lastFakeScore ps with _ | s
    · rw [hps] at h
      simp only at h
      rcases hf : isFakeLabel (pyLower p.label) with _ | _
      · rw [hf] at h; simp at h
      · rw [hf] at h
        simp only [if_true, Option.some.injEq] at h
        exact ⟨p, List.mem_cons_self p ps, hf, h⟩
    · rw [hps] at h
      simp only [Option.some.injEq] at h
      subst h
      obtain ⟨q, hq, hqf, hqs⟩ := ih hps
      exact ⟨q, List.mem_cons_of_mem p hq, hqf, hqs⟩

theorem lastRealScore_mem (preds : List Prediction) (t : ℚ)
    (h : lastRealScore preds = some t) :
    ∃ p ∈ preds, isRealLabel (pyLower p.label) = true ∧ p.score = t := by
  induction preds with
  | nil => exact absurd h (by simp [lastRealScore])
  | cons p ps ih =>
    rw [lastRealScore] at h
    rcases hps : lastRealScore ps with _ | s
    · rw [hps] at h
      simp only at h
      rcases hr : isRealLabel (pyLower p.label) with _ | _
      · rw [hr] at h; simp at h
      · rw [hr] at h
        simp only [if_true, Option.some.injEq] at h
        exact ⟨p, List.mem_cons_self p ps, hr, h⟩
    · rw [hps] at h
      simp only [Option.some.injEq] at h
      subst h
      obtain ⟨q, hq, hqr, hqs⟩ := ih hps
      exact ⟨q, List.mem_cons_of_mem p hq, hqr, hqs⟩

/-! Helper lemmas about line joining and in-order substring containment. -/

theorem string_data_append (a b : String) : (a ++ b).data = a.data ++ b.data := rfl

theorem containsInOrder_prepend (u s : List Char) (ls : List (List Char))
    (h : containsInOrder s ls) : containsInOrder (u ++ s) ls := by
  cases ls with
  | nil => trivial
  | cons l ls =>
    obtain ⟨a, b, rfl, hb⟩ := h
    exact ⟨u ++ a, b, by simp, hb⟩

theorem containsInOrder_joinLines_bullets (logs : List String) :
    containsInOrder (joinLines (logs.map (fun log => "• " ++ log))).data
      (logs.map String.data) := by
  induction logs with
  | nil => trivial
  | cons l ls ih =>
    cases ls with
    | nil =>
      refine ⟨"• ".data, [], ?_, trivial⟩
      simp [joinLines, string_data_append]
    | cons l2 ls2 =>
      refine ⟨"• ".data,
        "\n".data ++ (joinLines ((l2 :: ls2).map (fun log => "• " ++ log))).data, ?_, ?_⟩
      · simp [joinLines, string_data_append]
      · exact containsInOrder_prepend _ _ _ ih

theorem joinLines_append_data (H B : List String) (hH : H ≠ []) (hB : B ≠ []) :
    (joinLines (H ++ B)).data =
      (joinLines H).data ++ '\n' :: (joinLines B).data := by
  induction H with
  | nil => exact absurd rfl hH
  | cons h t ih =>
    cases t with
    | nil =>
      cases B with
      | nil => exact absurd rfl hB
      | cons b bs => simp [joinLines, string_data_append]
    | cons t1 ts =>
      have step : ∀ rest : List String,
          joinLines (h :: t1 :: rest) = h ++ "\n" ++ joinLines (t1 :: rest) :=
        fun _ => rfl
      calc (joinLines ((h :: t1 :: ts) ++ B)).data
          = (h ++ "\n" ++ joinLines (t1 :: (ts ++ B))).data := by
            rw [show (h :: t1 :: ts) ++ B = h :: t1 :: (ts ++ B) from rfl, step]
        _ = h.data ++ '\n' :: (joinLines (t1 :: ts)).data ++ '\n' :: (joinLines B).data := by
            rw [string_data_append, string_data_append,
              show t1 :: (ts ++ B) = (t1 :: ts) ++ B from rfl, ih (by simp)]
            simp
        _ = (joinLines (h :: t1 :: ts)).data ++ '\n' :: (joinLines B).data := by
            rw [step ts, string_data_append, string_data_append]
            simp

/-! Claim theorems. -/

/-- C1: for every pair of normalized scores in [0,1], the ensemble combination
in `scan_image` computes `final_risk = max(score_swap, score_gen) * 100` when
at least one score exceeds 0.9, and
`final_risk = (score_swap * 0.5 + score_gen * 0.5) * 100` when both scores are
at most 0.9. -/
theorem C1_ensemble_override_and_blend (s g : ℚ)
    (hs0 : 0 ≤ s) (hs1 : s ≤ 1) (hg0 : 0 ≤ g) (hg1 : g ≤ 1) :
    (s > 9/10 ∨ g > 9/10 → finalScore s g = max s g * 100) ∧
    (s ≤ 9/10 ∧ g ≤ 9/10 → finalScore s g = (s * (1/2) + g * (1/2)) * 100) := by
  constructor
  · intro h
    rw [finalScore, if_pos h]
  · rintro ⟨h1, h2⟩
    rw [finalScore, if_neg]
    push_neg
    exact ⟨h1, h2⟩

/-- Witness for C1: the override branch at (0.95, 0.3) and the blend branch at
(0.4, 0.6). -/
theorem C1_witness :
    finalScore (19/20) (3/10) = max (19/20 : ℚ) (3/10) * 100 ∧
    finalScore (2/5) (3/5) = ((2/5 : ℚ) * (1/2) + (3/5) * (1/2)) * 100 :=
  ⟨(C1_ensemble_override_and_blend (19/20) (3/10) (by norm_num) (by norm_num)
      (by norm_num) (by norm_num)).1 (Or.inl (by norm_num)),
   (C1_ensemble_override_and_blend (2/5) (3/5) (by norm_num) (by norm_num)
      (by norm_num) (by norm_num)).2 ⟨by norm_num, by norm_num⟩⟩

/-- C2: `scan_image` assigns verdict FAKE iff `final_risk > 50` (the verdict is
one of FAKE/REAL, so exactly 50 yields REAL), and the displayed confidence is
`final_risk` under FAKE and `100 - final_risk` under REAL, the inversion being
applied after the verdict is fixed. -/
theorem C2_verdict_rule_and_display (s g : ℚ) :
    (verdictOf s g = "FAKE" ↔ finalScore s g > 50) ∧
    (verdictOf s g = "FAKE" ∨ verdictOf s g = "REAL") ∧
    displayScore s g =
      (if finalScore s g > 50 then finalScore s g else 100 - finalScore s g) := by
  by_cases h : finalScore s g > 50 <;>
    simp [verdictOf, displayScore, h]

/-- C3: whenever the last prediction whose lowercased label lies in the fixed
fake set has score `t > 0`, `get_fake_probability` returns exactly `t` (later
duplicate fake labels overwrite earlier ones, they do not accumulate). -/
theorem C3_fake_score_returned (preds : List Prediction) (t : ℚ)
    (hlast : lastFakeScore preds = some t) (ht : 0 < t) :
    get_fake_probability preds = t := by
  have h1 : (scoresOf preds).1 = t := by rw [scoresOf_fst, hlast]; rfl
  simp [get_fake_probability, h1, ht]

/-- Witness for C3: two fake-set labels, the later one (score 0.6) wins over
the earlier one (score 0.7), and the label is matched after lowercasing. -/
theorem C3_witness :
    get_fake_probability [⟨"FAKE", 7/10⟩, ⟨"deepfake", 3/5⟩] = 3/5 :=
  C3_fake_score_returned _ _
    (by simp [lastFakeScore, show isFakeLabel (pyLower "deepfake") = true from rfl])
    (by norm_num)

/-- Counterexample to C4 as stated: a prediction list whose only recognized
label is the real-set label `"real"` with score 0 yields the 0.5 fallback,
not `1 - 0 = 1`. -/
theorem C4_counterexample :
    get_fake_probability [⟨"real", 0⟩] = 1/2 ∧ (1 : ℚ) - 0 ≠ 1/2 := by
  constructor
  · simp [get_fake_probability, scoresOf, List.foldl_cons, List.foldl_nil,
      scoreStep, show isFakeLabel (pyLower "real") = false from rfl,
      show isRealLabel (pyLower "real") = true from rfl]
  · norm_num

/-- C4 amended: when no fake-set label has positive score and the last
real-set label has score `t` with `t > 0`, `get_fake_probability` returns
`1 - t` (at `t = 0` the function instead falls back to 0.5). -/
theorem C4_real_score_inverted (preds : List Prediction) (t : ℚ)
    (hfake : ∀ p ∈ preds, isFakeLabel (pyLower p.label) = true → p.score ≤ 0)
    (hreal : lastRealScore preds = some t) (ht : 0 < t) :
    get_fake_probability preds = 1 - t := by
  have h1 : ¬(scoresOf preds).1 > 0 := by
    rw [scoresOf_fst]
    rcases hl : lastFakeScore preds with _ | u
    · simp
    · obtain ⟨p, hp, hpf, hps⟩ := lastFakeScore_mem preds u hl
      have hle := hfake p hp hpf
      rw [hps] at hle
      simpa using hle
  have h2 : (scoresOf preds).2 = t := by rw [scoresOf_snd, hreal]; rfl
  simp [get_fake_probability, h1, h2, ht]

/-- Witness for C4 (amended): a single real-set label `"Real"` with score 0.8
gives `1 - 0.8`. -/
theorem C4_witness : get_fake_probability [⟨"Real", 4/5⟩] = 1 - 4/5 :=
  C4_real_score_inverted _ _
    (by
      intro p hp hf
      rw [List.mem_singleton] at hp
      subst hp
      simp [show isFakeLabel (pyLower "Real") = false from rfl] at hf)
    (by simp [lastRealScore, show isRealLabel (pyLower "Real") = true from rfl])
    (by norm_num)

/-- C5: `get_fake_probability` is total by construction (never raises), and
whenever no fake-set or real-set label contributes a nonzero score — in
particular for the empty list and for lists of unrecognized labels — it
returns the fallback 0.5. -/
theorem C5_fallback_half (preds : List Prediction)
    (h : ∀ p ∈ preds,
      isFakeLabel (pyLower p.label) = true ∨ isRealLabel (pyLower p.label) = true →
      p.score = 0) :
    get_fake_probability preds = 1/2 := by
  have h1 : ¬(scoresOf preds).1 > 0 := by
    rw [scoresOf_fst]
    rcases hl : lastFakeScore preds with _ | u
    · simp
    · obtain ⟨p, hp, hpf, hps⟩ := lastFakeScore_mem preds u hl
      have h0 := h p hp (Or.inl hpf)
      rw [hps] at h0
      simp [h0]
  have h2 : ¬(scoresOf preds).2 > 0 := by
    rw [scoresOf_snd]
    rcases hl : lastRealScore preds with _ | u
    · simp
    · obtain ⟨p, hp, hpr, hps⟩ := lastRealScore_mem preds u hl
      have h0 := h p hp (Or.inr hpr)
      rw [hps] at h0
      simp [h0]
  simp [get_fake_probability, h1, h2]

/-- Witness for C5: a single unrecognized label degrades to 0.5. -/
theorem C5_witness : get_fake_probability [⟨"banana", 9/10⟩] = 1/2 :=
  C5_fallback_half _
    (by
      intro p hp hrec
      rw [List.mem_singleton] at hp
      subst hp
      rcases hrec with hf | hr
      · simp [show isFakeLabel (pyLower "banana") = false from rfl] at hf
      · simp [show isRealLabel (pyLower "banana") = false from rfl] at hr)

/-- If either model score exceeds 0.9 the verdict is necessarily FAKE, since
the override makes the final risk exceed 90. -/
theorem verdict_fake_of_high (s g : ℚ) (h : s > 9/10 ∨ g > 9/10) :
    verdictOf s g = "FAKE" := by
  have hmax : max s g > 9/10 := by
    rcases h with h | h
    · exact lt_of_lt_of_le h (le_max_left s g)
    · exact lt_of_lt_of_le h (le_max_right s g)
  have hf : finalScore s g = max s g * 100 := by rw [finalScore, if_pos h]
  rw [verdictOf, if_pos]
  rw [hf]
  nlinarith

/-- Counterexample to C6 as stated: at scores (0.8, 0.8) the verdict is FAKE,
no individual score exceeds 0.9, and the headline list is empty — no generic
"ensemble" headline line is emitted on this path. -/
theorem C6_counterexample :
    verdictOf (4/5) (4/5) = "FAKE" ∧ ¬((4 : ℚ)/5 > 9/10) ∧
      headlineLines (4/5) (4/5) = [] := by
  refine ⟨?_, by norm_num, ?_⟩ <;>
    norm_num [verdictOf, finalScore, headlineLines]

/-- C6 amended: each collaborator whose score exceeds 0.9 contributes its own
headline line (the verdict is then necessarily FAKE); when the verdict is FAKE
and no individual score exceeds 0.9, no headline line at all is emitted; when
the verdict is REAL, one generic clean line is emitted. -/
theorem C6_headline_rules (s g : ℚ) :
    (s > 9/10 → swapLine s ∈ headlineLines s g) ∧
    (g > 9/10 → genLine g ∈ headlineLines s g) ∧
    (verdictOf s g = "FAKE" → s ≤ 9/10 → g ≤ 9/10 → headlineLines s g = []) ∧
    (verdictOf s g = "REAL" → headlineLines s g = [cleanLine]) := by
  refine ⟨?_, ?_, ?_, ?_⟩
  · intro h
    rw [headlineLines, if_pos (verdict_fake_of_high s g (Or.inl h)), if_pos h]
    exact List.mem_append_left _ (List.mem_singleton_self _)
  · intro h
    rw [headlineLines, if_pos (verdict_fake_of_high s g (Or.inr h))]
    refine List.mem_append_right _ ?_
    rw [if_pos h]
    exact List.mem_singleton_self _
  · intro hv h1 h2
    rw [headlineLines, if_pos hv, if_neg (not_lt.2 h1), if_neg (not_lt.2 h2)]
    rfl
  · intro hv
    rw [headlineLines, if_neg]
    rw [hv]
    simp

/-- Witness for C6 (amended): Vigilante's line appears at (0.95, 0.3); at
(0.8, 0.82) the verdict is FAKE yet no headline is emitted; at (0.4, 0.6) the
verdict is REAL and the clean line is emitted. -/
theorem C6_witness :
    swapLine (19/20) ∈ headlineLines (19/20) (3/10) ∧
      headlineLines (4/5) (41/50) = [] ∧
      headlineLines (2/5) (3/5) = [cleanLine] :=
  ⟨(C6_headline_rules (19/20) (3/10)).1 (by norm_num),
   (C6_headline_rules (4/5) (41/50)).2.2.1
     (by norm_num [verdictOf, finalScore]) (by norm_num) (by norm_num),
   (C6_headline_rules (2/5) (3/5)).2.2.2 (by norm_num [verdictOf, finalScore])⟩

/-- C7: in the analysis text, after the joined headline line(s), every
forensic heuristic log line occurs verbatim (character for character,
unchanged) and in the order received, the lines being joined by newline
separators. -/
theorem C7_logs_verbatim_in_order (s g : ℚ) (logs : List String) :
    ∃ rest : List Char,
      (fullAnalysis s g logs).data = (joinLines (headlineLines s g)).data ++ rest ∧
      containsInOrder rest (logs.map String.data) := by
  rcases logs with _ | ⟨l, ls⟩
  · refine ⟨[], ?_, trivial⟩
    simp [fullAnalysis, reportLines]
  · rcases hH : headlineLines s g with _ | ⟨h1, hs1⟩
    · refine ⟨(joinLines ((l :: ls).map (fun log => "• " ++ log))).data, ?_, ?_⟩
      · simp [fullAnalysis, reportLines, hH, joinLines]
      · exact containsInOrder_joinLines_bullets (l :: ls)
    · refine ⟨'\n' :: (joinLines ((l :: ls).map (fun log => "• " ++ log))).data, ?_, ?_⟩
      · rw [fullAnalysis, reportLines, hH]
        exact joinLines_append_data _ _ (by simp) (by simp)
      · exact containsInOrder_prepend ['\n'] _ _
          (containsInOrder_joinLines_bullets (l :: ls))

/-- Counterexample to C8 as stated: on the error path the response has no
`confidence_score` field at all (while its verdict is ERROR), so not every
response carries all three fields. -/
theorem C8_counterexample :
    (scanImage (Except.error "cannot identify image file")).confidence_score
        = none ∧
      (scanImage (Except.error "cannot identify image file")).verdict = "ERROR" :=
  ⟨rfl, rfl⟩

/-- C8 amended: every response has a verdict among FAKE/REAL/ERROR and an
analysis; success responses additionally carry the confidence percentage
string, but the error-path response omits the `confidence_score` field. -/
theorem C8_response_fields (s g : ℚ) (logs : List String) (e : String) :
    scanImage (Except.ok ((s, g), logs)) = scanCore s g logs ∧
    ((scanCore s g logs).verdict = "FAKE" ∨ (scanCore s g logs).verdict = "REAL") ∧
    (scanCore s g logs).confidence_score
        = some (formatPercent (displayScore s g)) ∧
    (scanCore s g logs).analysis = fullAnalysis s g logs ∧
    (scanImage (Except.error e)).verdict = "ERROR" ∧
    (scanImage (Except.error e)).confidence_score = none ∧
    (scanImage (Except.error e)).analysis = e := by
  refine ⟨rfl, ?_, rfl, rfl, rfl, rfl, rfl⟩
  by_cases h : finalScore s g > 50
  · left
    simp [scanCore, verdictOf, h]
  · right
    simp [scanCore, verdictOf, h]

/-- C9: an exception raised in the fallible phase of `scan_image` is caught at
the request boundary and converted into a response with verdict ERROR whose
analysis is the exception's message; conversely an ERROR verdict only arises
from such a caught exception, so no exception escapes unhandled. -/
theorem C9_exception_converted (e : String) :
    (scanImage (Except.error e)).verdict = "ERROR" ∧
    (scanImage (Except.error e)).analysis = e ∧
    ∀ phases : Except String ((ℚ × ℚ) × List String),
      (scanImage phases).verdict = "ERROR" → ∃ msg, phases = Except.error msg := by
  refine ⟨rfl, rfl, ?_⟩
  intro phases h
  cases phases with
  | error msg => exact ⟨msg, rfl⟩
  | ok v =>
    obtain ⟨⟨s, g⟩, logs⟩ := v
    exfalso
    rw [show scanImage (Except.ok ((s, g), logs)) = scanCore s g logs from rfl] at h
    by_cases hf : finalScore s g > 50 <;>
      simp [scanCore, verdictOf, hf] at h

/-- Witness for C9: a concrete caught exception, and the converse applied to
the same concrete error value. -/
theorem C9_witness :
    (scanImage (Except.error "broken image")).verdict = "ERROR" ∧
      ∃ msg, (Except.error "broken image" :
          Except String ((ℚ × ℚ) × List String)) = Except.error msg :=
  ⟨(C9_exception_converted "broken image").1,
   (C9_exception_converted "broken image").2.2 (Except.error "broken image") rfl⟩

/-- C10: for normalized scores in [0,1] the displayed confidence always lies
in [50, 100]: a risk of at most 50 is reframed as authenticity
`100 - final_risk ≥ 50`, so a non-ERROR response never reports a confidence
below 50 percent. -/
theorem C10_confidence_range (s g : ℚ)
    (hs0 : 0 ≤ s) (hs1 : s ≤ 1) (hg0 : 0 ≤ g) (hg1 : g ≤ 1) :
    50 ≤ displayScore s g ∧ displayScore s g ≤ 100 := by
  have hF0 : 0 ≤ finalScore s g := by
    rw [finalScore]
    split
    · have hm : (0 : ℚ) ≤ max s g := le_trans hs0 (le_max_left s g)
      nlinarith
    · nlinarith
  have hF1 : finalScore s g ≤ 100 := by
    rw [finalScore]
    split
    · have hm : max s g ≤ 1 := max_le hs1 hg1
      nlinarith
    · nlinarith
  rw [displayScore, verdictOf]
  by_cases h : finalScore s g > 50
  · rw [if_pos h]
    simp only [show ("FAKE" : String) = "REAL" ↔ False by simp, if_false]
    constructor <;> linarith
  · rw [if_neg h, if_pos (show ("REAL" : String) = "REAL" from rfl)]
    constructor <;> linarith

/-- Witness for C10: at scores (0.3, 0.6) the final risk is 45, the verdict is
REAL and the displayed confidence 55 lies in [50, 100]. -/
theorem C10_witness :
    50 ≤ displayScore (3/10) (3/5) ∧ displayScore (3/10) (3/5) ≤ 100 :=
  C10_confidence_range (3/10) (3/5) (by norm_num) (by norm_num) (by norm_num)
    (by norm_num)

end DeepfakeDetection
